import Mathlib

/-!
# Verification of the polling data-fetch core of Data-Automation-Bot

Shallow embedding of the data-fetching code of the repository:

* `useApi` (src/frontend/src/pages/Dashboard.tsx lines 3-19, and the identical copy in the
  second frontend tree): a React hook holding `data` / `loading` / `error` state, issuing a
  fetch in an effect guarded by a per-effect `cancelled` flag set by the effect cleanup.
* `apiRequest` (src/web/static/js/main.js lines 125-150): the vanilla-JS fetch wrapper.
* `startAutoRefresh` / `stopAutoRefresh` (src/web/static/js/main.js lines 191-205) and the
  `setupAutoRefresh` visibility handling of jobs.js / dashboard.js / config.js.
* `formatFileSize` (src/web/static/js/main.js lines 30-36).
* `loadJobs` (src/web/static/js/jobs.js lines 73-96) and its render path.
-/

namespace DataAutomationBot

/-! ## The useApi hook

`useApi` keeps three pieces of React state: `data` (initially `null`), `loading`
(initially `true`), `error` (initially `null`).  Each effect run closes over a fresh
`cancelled` boolean; the cleanup sets it to `true`.  The promise chain after the fetch
writes state only under `if (!cancelled)`.

We model payloads as `Nat` (the claims do not depend on the payload type) and error
messages as `String`.  An *attempt token* identifies one effect run: attempt `t` is
cancelled exactly when the subscription's `current` token is no longer `some t`
(cleanup sets `current := none`; a subsequent effect run installs a fresh token). -/

structure HookState where
  data : Option Nat
  loading : Bool
  error : Option String
  deriving DecidableEq, Repr

/-- Initial hook state: `useState(null)`, `useState(true)`, `useState(null)`. -/
def initHook : HookState := ⟨none, true, none⟩

/-- A subscription: the hook state plus the identity of the live (not yet cancelled)
effect run, and the supply of fresh attempt tokens. -/
structure Sub where
  hook : HookState
  current : Option Nat
  next : Nat
  deriving DecidableEq, Repr

def initSub : Sub := ⟨initHook, none, 0⟩

/-- Events of one subscription:

* `start`: the effect body runs (`setLoading(true)`, issue the fetch) — happens on mount
  and after every descriptor (`deps`) change;
* `resolveOk tok j`: the network call of attempt `tok` fulfilled and its body decoded to
  `j`; the chain runs `setData(j)` then `setLoading(false)`, both guarded by the flag;
* `resolveErr tok e`: the call of attempt `tok` rejected (HTTP error thrown, network
  failure, or decode failure) with message `e`; the chain runs `setError(e)` then
  `setLoading(false)`, both guarded;
* `cleanup`: the effect cleanup (`cancelled = true`) — runs on unmount and before the
  next effect body on a descriptor change. -/
inductive Ev where
  | start : Ev
  | resolveOk : Nat → Nat → Ev
  | resolveErr : Nat → String → Ev
  | cleanup : Ev
  deriving DecidableEq, Repr

/-- One step of the subscription.  A resolution whose attempt token is no longer the
current one finds its `cancelled` flag set and leaves every piece of state untouched. -/
def step (s : Sub) : Ev → Sub
  | .start =>
      { s with hook := { s.hook with loading := true },
               current := some s.next,
               next := s.next + 1 }
  | .resolveOk tok j =>
      if s.current = some tok then
        { s with hook := { s.hook with data := some j, loading := false } }
      else s
  | .resolveErr tok e =>
      if s.current = some tok then
        { s with hook := { s.hook with error := some e, loading := false } }
      else s
  | .cleanup => { s with current := none }

/-- Run a list of events. -/
def run (s : Sub) : List Ev → Sub
  | [] => s
  | e :: es => run (step s e) es

/-- Tokens are issued from the counter: the live token is always below `next`. -/
def Inv (s : Sub) : Prop := ∀ t, s.current = some t → t < s.next

theorem inv_init : Inv initSub := by
  intro t h
  simp [initSub] at h

theorem resolveOk_current (s : Sub) (tok j : Nat) :
    (step s (.resolveOk tok j)).current = s.current := by
  simp only [step]; split <;> rfl

theorem resolveOk_next (s : Sub) (tok j : Nat) :
    (step s (.resolveOk tok j)).next = s.next := by
  simp only [step]; split <;> rfl

theorem resolveErr_current (s : Sub) (tok : Nat) (e : String) :
    (step s (.resolveErr tok e)).current = s.current := by
  simp only [step]; split <;> rfl

theorem resolveErr_next (s : Sub) (tok : Nat) (e : String) :
    (step s (.resolveErr tok e)).next = s.next := by
  simp only [step]; split <;> rfl

theorem inv_step (s : Sub) (e : Ev) (h : Inv s) : Inv (step s e) := by
  cases e with
  | start =>
      intro t ht
      simp only [step, Option.some.injEq] at ht
      simp only [step]
      omega
  | resolveOk tok j =>
      intro t ht
      rw [resolveOk_current] at ht
      rw [resolveOk_next]
      exact h t ht
  | resolveErr tok e =>
      intro t ht
      rw [resolveErr_current] at ht
      rw [resolveErr_next]
      exact h t ht
  | cleanup =>
      intro t ht
      simp [step] at ht

theorem next_mono (s : Sub) (e : Ev) : s.next ≤ (step s e).next := by
  cases e with
  | start => simp [step]
  | resolveOk tok j => rw [resolveOk_next]
  | resolveErr tok e => rw [resolveErr_next]
  | cleanup => simp [step]

/-- Once an attempt is superseded it stays superseded: no later event can make a stale
token current again. -/
theorem superseded_step (s : Sub) (e : Ev) (t : Nat)
    (hlt : t < s.next) (hsup : s.current ≠ some t) :
    t < (step s e).next ∧ (step s e).current ≠ some t := by
  cases e with
  | start =>
      refine ⟨by simp [step]; omega, ?_⟩
      simp only [step]
      intro hc
      simp at hc
      omega
  | resolveOk tok j =>
      rw [resolveOk_next, resolveOk_current]
      exact ⟨hlt, hsup⟩
  | resolveErr tok e =>
      rw [resolveErr_next, resolveErr_current]
      exact ⟨hlt, hsup⟩
  | cleanup =>
      exact ⟨hlt, by simp [step]⟩

theorem superseded_run (s : Sub) (es : List Ev) (t : Nat)
    (hlt : t < s.next) (hsup : s.current ≠ some t) :
    t < (run s es).next ∧ (run s es).current ≠ some t := by
  induction es generalizing s with
  | nil => exact ⟨hlt, hsup⟩
  | cons e es ih =>
      have h := superseded_step s e t hlt hsup
      exact ih (step s e) h.1 h.2

/-- A resolution of a superseded attempt is a complete no-op on the subscription. -/
theorem stale_resolution_noop (s : Sub) (t j : Nat) (e : String)
    (hsup : s.current ≠ some t) :
    step s (.resolveOk t j) = s ∧ step s (.resolveErr t e) = s := by
  constructor <;> · simp only [step]; rw [if_neg hsup]

/-- C1: a superseded fetch never writes into the subscription's state.  If attempt `t`
is in flight (`current = some t`) and the effect cleanup runs (subscription torn down,
or descriptor changed — in that case `es` starts with the next effect's `start`), then
at every later point of the subscription's life, a resolution of attempt `t` — success
or failure — leaves the subscription (data, loading, error, everything) exactly as it
was: no state update is delivered, so the observed state reflects only attempts issued
after the supersession. -/
theorem useApi_superseded_silent (s : Sub) (t : Nat)
    (hInv : Inv s) (hcur : s.current = some t) :
    ∀ (es : List Ev) (j : Nat) (e : String),
      step (run (step s .cleanup) es) (.resolveOk t j) = run (step s .cleanup) es ∧
      step (run (step s .cleanup) es) (.resolveErr t e) = run (step s .cleanup) es := by
  intro es j e
  have hlt : t < (step s .cleanup).next := by
    simpa [step] using hInv t hcur
  have hsup : (step s .cleanup).current ≠ some t := by
    simp [step]
  have h := superseded_run (step s .cleanup) es t hlt hsup
  exact stale_resolution_noop (run (step s .cleanup) es) t j e h.2

/-- C1 witness: mount (attempt 0 issued), descriptor change (cleanup then a fresh
effect run), then attempt 0's network call resolves — with success or with failure —
and nothing changes. -/
theorem useApi_superseded_silent_witness :
    step (run (step (run initSub [.start]) .cleanup) [.start]) (.resolveOk 0 7) =
      run (step (run initSub [.start]) .cleanup) [.start] ∧
    step (run (step (run initSub [.start]) .cleanup) [.start]) (.resolveErr 0 "fail") =
      run (step (run initSub [.start]) .cleanup) [.start] :=
  useApi_superseded_silent (run initSub [.start]) 0
    (by intro u hu; simp [run, step, initSub, initHook] at hu ⊢; omega)
    (by decide) [.start] 7 "fail"

/-! ## The fetch-state variant (C5)

The spec reads the `data`/`loading`/`error` triple as a tagged variant
`Idle | Loading | Success(payload) | Failure(reason)`.  The decoding used by every
consuming view: `loading` true means Loading; otherwise an error means Failure, a
payload with no error means Success, and nothing at all means Idle. -/

inductive FetchVariant where
  | idle : FetchVariant
  | loading : FetchVariant
  | success : FetchVariant
  | failure : FetchVariant
  deriving DecidableEq, Repr

def FetchVariant.holds : FetchVariant → HookState → Prop
  | .idle, h => h.loading = false ∧ h.data = none ∧ h.error = none
  | .loading, h => h.loading = true
  | .success, h => h.loading = false ∧ h.data.isSome = true ∧ h.error = none
  | .failure, h => h.loading = false ∧ h.error.isSome = true

/-- C5: the triple encodes exactly one state at every observable point, and within one
fetch attempt the transitions are monotonic and atomic: each attempt begins by setting
Loading; a delivered success installs the payload and clears `loading` in the same
transition (never a payload left visible together with this attempt's `loading`) and
does not touch `error`; a delivered failure sets `error` and clears `loading` in the
same transition and does not touch `data` — one attempt writes a payload or an error,
never both. -/
theorem useApi_state_tagged_variant :
    (∀ h : HookState, ∃! v : FetchVariant, v.holds h) ∧
    (∀ (s : Sub) (t j : Nat), s.current = some t →
        (step s (.resolveOk t j)).hook = ⟨some j, false, s.hook.error⟩) ∧
    (∀ (s : Sub) (t : Nat) (e : String), s.current = some t →
        (step s (.resolveErr t e)).hook = ⟨s.hook.data, false, some e⟩) ∧
    (∀ s : Sub, (step s .start).hook = ⟨s.hook.data, true, s.hook.error⟩) := by
  refine ⟨?_, ?_, ?_, ?_⟩
  · intro h
    obtain ⟨d, l, e⟩ := h
    cases l with
    | true =>
        refine ⟨.loading, by simp [FetchVariant.holds], ?_⟩
        intro v hv
        cases v <;> simp [FetchVariant.holds] at hv ⊢
    | false =>
        cases e with
        | some msg =>
            refine ⟨.failure, by simp [FetchVariant.holds], ?_⟩
            intro v hv
            cases v <;> simp [FetchVariant.holds] at hv ⊢
        | none =>
            cases d with
            | some payload =>
                refine ⟨.success, by simp [FetchVariant.holds], ?_⟩
                intro v hv
                cases v <;> simp [FetchVariant.holds] at hv ⊢
            | none =>
                refine ⟨.idle, by simp [FetchVariant.holds], ?_⟩
                intro v hv
                cases v <;> simp [FetchVariant.holds] at hv ⊢
  · intro s t j hcur
    simp [step, hcur]
  · intro s t e hcur
    simp [step, hcur]
  · intro s
    simp [step]

/-- C5 witness: on the freshly mounted subscription (attempt 0 loading), a delivered
success moves the triple to exactly `Success 42`. -/
theorem useApi_state_tagged_variant_witness :
    (step (run initSub [.start]) (.resolveOk 0 42)).hook = ⟨some 42, false, none⟩ := by
  have h := useApi_state_tagged_variant.2.1 (run initSub [.start]) 0 42 (by decide)
  rw [h]
  decide

/-! ## One-shot failure semantics (C6)

`useApi` returns `{ data, loading, error }` — and nothing else: there is no `refetch`
handle anywhere in the hook (nor anywhere else in the repository).  The only way out
of a `Failure` is a change of `deps` (descriptor) or a remount, both of which rerun
the effect (`start`). -/

/-- The fields of the object returned by `useApi`: `return { data, loading, error }`
(src/frontend/src/pages/Dashboard.tsx line 18). -/
def useApiReturnFields : List String := ["data", "loading", "error"]

def Ev.isStart : Ev → Bool
  | .start => true
  | _ => false

/-- The attempt token a resolution event belongs to. -/
def Ev.tokOf : Ev → Option Nat
  | .resolveOk t _ => some t
  | .resolveErr t _ => some t
  | _ => none

/-- If no new effect run happens and attempt `t` is not resolved again, the hook state
and the attempt counter are frozen. -/
theorem run_frozen (t : Nat) :
    ∀ (es : List Ev) (s : Sub),
      (s.current = some t ∨ s.current = none) →
      (∀ e ∈ es, e.isStart = false ∧ e.tokOf ≠ some t) →
      (run s es).hook = s.hook ∧ (run s es).next = s.next := by
  intro es
  induction es with
  | nil => intro s _ _; exact ⟨rfl, rfl⟩
  | cons e es ih =>
      intro s hcur hes
      have he := hes e (by simp)
      have hstep : (step s e).hook = s.hook ∧ (step s e).next = s.next ∧
          ((step s e).current = some t ∨ (step s e).current = none) := by
        cases e with
        | start => simp [Ev.isStart] at he
        | resolveOk t' j =>
            have hne : s.current ≠ some t' := by
              rcases hcur with h | h <;> rw [h]
              · intro hc
                injection hc with hc
                exact he.2 (by simp [Ev.tokOf, hc])
              · simp
            rw [(stale_resolution_noop s t' j "" hne).1]
            exact ⟨rfl, rfl, hcur⟩
        | resolveErr t' msg =>
            have hne : s.current ≠ some t' := by
              rcases hcur with h | h <;> rw [h]
              · intro hc
                injection hc with hc
                exact he.2 (by simp [Ev.tokOf, hc])
              · simp
            rw [(stale_resolution_noop s t' 0 msg hne).2]
            exact ⟨rfl, rfl, hcur⟩
        | cleanup => exact ⟨rfl, rfl, Or.inr rfl⟩
      obtain ⟨h1, h2, h3⟩ := hstep
      have hrest := ih (step s e) h3 (fun e' he' => hes e' (List.mem_cons_of_mem _ he'))
      rw [show run s (e :: es) = run (step s e) es from rfl, hrest.1, hrest.2, h1, h2]
      exact ⟨rfl, rfl⟩

/-- C6 counterexample: the claim says a `refetch()` handle is returned alongside the
disposer, but `useApi` returns only `{ data, loading, error }` — no `refetch` field
exists (no `refetch` identifier occurs anywhere in the repository). -/
theorem useApi_no_refetch_handle : "refetch" ∉ useApiReturnFields := by
  decide

/-- C6 amended: a one-shot fetch that fails stays in `Failure` — with no automatic
retry (the attempt counter never moves) — as long as no new effect run occurs (no
descriptor change or remount; the fetch itself settles only once).  The hook returns
only `{ data, loading, error }`: there is no `refetch()` handle, so a descriptor
change or remount is the only way a consumer can request another fetch. -/
theorem oneShot_failure_stays (s : Sub) (t : Nat) (e : String)
    (hcur : s.current = some t) (es : List Ev)
    (hes : ∀ ev ∈ es, ev.isStart = false ∧ ev.tokOf ≠ some t) :
    (run (step s (.resolveErr t e)) es).hook = ⟨s.hook.data, false, some e⟩ ∧
    (run (step s (.resolveErr t e)) es).next = s.next ∧
    useApiReturnFields = ["data", "loading", "error"] := by
  have hhook : (step s (.resolveErr t e)).hook = ⟨s.hook.data, false, some e⟩ := by
    simp [step, hcur]
  have hfrozen := run_frozen t es (step s (.resolveErr t e))
    (by rw [resolveErr_current]; exact Or.inl hcur) hes
  refine ⟨?_, ?_, rfl⟩
  · rw [hfrozen.1, hhook]
  · rw [hfrozen.2, resolveErr_next]

/-- C6 witness: mount, attempt 0 fails with "500"; afterwards a stale resolution of a
different token and the unmount cleanup arrive — the hook stays in that Failure and no
new attempt is ever issued. -/
theorem oneShot_failure_stays_witness :
    (run (step (run initSub [.start]) (.resolveErr 0 "500"))
        [.resolveOk 3 9, .cleanup]).hook = ⟨none, false, some "500"⟩ ∧
    (run (step (run initSub [.start]) (.resolveErr 0 "500"))
        [.resolveOk 3 9, .cleanup]).next = 1 ∧
    useApiReturnFields = ["data", "loading", "error"] :=
  oneShot_failure_stays (run initSub [.start]) 0 "500" (by decide)
    [.resolveOk 3 9, .cleanup] (by decide)

/-! ## The jobs page (C7)

src/web/static/js/jobs.js: module state `currentJobs` plus the `#jobsGrid` DOM node.
`loadJobs` on success stores the response and re-renders; its `catch` shows a toast and
replaces the grid's innerHTML with a "Failed to load jobs" placeholder, leaving
`currentJobs` alone.  We model the grid by its semantic content. -/

structure Job where
  id : String
  name : Option String
  next_run : Option String
  trigger : String
  deriving DecidableEq, Repr

inductive Grid where
  | initial : Grid
  | emptyPlaceholder : Grid
  | failurePlaceholder : Grid
  | rendered : List Job → Grid
  deriving DecidableEq, Repr

structure JobsPage where
  currentJobs : List Job
  jobsGrid : Grid
  deriving DecidableEq, Repr

def initJobsPage : JobsPage := ⟨[], .initial⟩

/-- `renderJobs` (jobs.js lines 99-141): empty list shows the "No scheduled jobs found"
placeholder, otherwise the grid shows the job cards built from `currentJobs`. -/
def renderJobs (s : JobsPage) : JobsPage :=
  if s.currentJobs = [] then { s with jobsGrid := .emptyPlaceholder }
  else { s with jobsGrid := .rendered s.currentJobs }

/-- `loadJobs` success path (jobs.js lines 74-78): `currentJobs = response.jobs` then
`renderJobs()`. -/
def loadJobsSuccess (s : JobsPage) (jobs : List Job) : JobsPage :=
  renderJobs { s with currentJobs := jobs }

/-- `loadJobs` catch path (jobs.js lines 80-95): error toast, then
`jobsGrid.innerHTML = `"Failed to load jobs" placeholder.  `currentJobs` is not
touched. -/
def loadJobsFailure (s : JobsPage) : JobsPage :=
  { s with jobsGrid := .failurePlaceholder }

/-- C7 counterexample: after a successful load renders one job, a failed refresh does
not leave the view showing that job — the catch branch of `loadJobs` overwrites the
grid with the "Failed to load jobs" placeholder. -/
theorem loadJobs_failure_overwrites_view :
    (loadJobsFailure (loadJobsSuccess initJobsPage
        [⟨"job-1", some "Sync", some "2026-01-01T00:00:00Z", "interval"⟩])).jobsGrid ≠
      (loadJobsSuccess initJobsPage
        [⟨"job-1", some "Sync", some "2026-01-01T00:00:00Z", "interval"⟩]).jobsGrid ∧
    (loadJobsSuccess initJobsPage
        [⟨"job-1", some "Sync", some "2026-01-01T00:00:00Z", "interval"⟩]).jobsGrid =
      .rendered [⟨"job-1", some "Sync", some "2026-01-01T00:00:00Z", "interval"⟩] ∧
    (loadJobsFailure (loadJobsSuccess initJobsPage
        [⟨"job-1", some "Sync", some "2026-01-01T00:00:00Z", "interval"⟩])).jobsGrid =
      .failurePlaceholder := by
  decide

/-- C7 amended: a failed fetch never clears or overwrites the *stored* data — the
useApi error branch writes only `error`, and `loadJobs`'s catch leaves `currentJobs`
unchanged — but the jobs *view* does not keep showing the last data: the catch replaces
the grid with the failure placeholder (with a toast describing the failure). -/
theorem fetch_failure_preserves_data (s : Sub) (t : Nat) (e : String) (p : JobsPage) :
    (step s (.resolveErr t e)).hook.data = s.hook.data ∧
    (loadJobsFailure p).currentJobs = p.currentJobs ∧
    (loadJobsFailure p).jobsGrid = .failurePlaceholder := by
  refine ⟨?_, rfl, rfl⟩
  simp only [step]
  split <;> rfl

/-! ## HTTP failure mapping (C2)

`useApi` (Dashboard.tsx line 11): `if (!r.ok) throw new Error(`${r.status}`)` — the
throw happens before `r.json()`, so a non-2xx response is never decoded and the error
message carries the status.  `apiRequest` (main.js lines 137-141) likewise throws
`HTTP ${status}: ${statusText}` before `response.json()`.

The decoder (`r.json()`) is a parameter; the Bool in the result records whether it was
ever consulted. -/

/-- `Response.ok` per the Fetch standard: status in the range 200 to 299. -/
def respOk (status : Nat) : Bool := 200 ≤ status && status ≤ 299

/-- Message of the rejection produced by `r.json()` on a body that is not valid JSON. -/
def jsonSyntaxError : String := "Unexpected token"

/-- useApi's handling of a settled response. -/
def useApiOnResponse (decode : String → Option Nat) (status : Nat) (body : String) :
    Except String Nat × Bool :=
  if respOk status then
    match decode body with
    | some j => (.ok j, true)
    | none => (.error jsonSyntaxError, true)
  else
    (.error (toString status), false)

/-- apiRequest's handling of a settled response (main.js lines 129-142). -/
def apiRequestOnResponse (decode : String → Option Nat) (status : Nat)
    (statusText body : String) : Except String Nat × Bool :=
  if respOk status then
    match decode body with
    | some j => (.ok j, true)
    | none => (.error jsonSyntaxError, true)
  else
    (.error ("HTTP " ++ toString status ++ ": " ++ statusText), false)

/-- C2: on an HTTP status outside 200-299, both fetch paths produce a Failure carrying
the HTTP status and never attempt to JSON-decode the body — for every possible decoder,
the result is the same error and the decode flag stays `false`. -/
theorem http_failure_no_decode (decode : String → Option Nat) (status : Nat)
    (body statusText : String) (h : respOk status = false) :
    useApiOnResponse decode status body = (.error (toString status), false) ∧
    apiRequestOnResponse decode status statusText body =
      (.error ("HTTP " ++ toString status ++ ": " ++ statusText), false) := by
  constructor
  · simp [useApiOnResponse, h]
  · simp [apiRequestOnResponse, h]

/-- C2 witness: a status-500 response with a non-JSON body (the decoder rejects every
body) yields Failure carrying status 500, with no decode attempt. -/
theorem http_failure_no_decode_witness :
    useApiOnResponse (fun _ => none) 500 "<html>oops</html>" = (.error "500", false) ∧
    apiRequestOnResponse (fun _ => none) 500 "Internal Server Error" "<html>oops</html>" =
      (.error "HTTP 500: Internal Server Error", false) := by
  have h := http_failure_no_decode (fun _ => none) 500 "<html>oops</html>"
    "Internal Server Error" (by decide)
  constructor
  · rw [h.1]; rfl
  · rw [h.2]; rfl

/-! ## The global auto-refresh timer (C8, C10, C4)

main.js lines 191-205 keep one closure variable `autoRefreshInterval` per page.
`startAutoRefresh(callback, interval)` clears the previous interval if one is set, then
installs a fresh one; `stopAutoRefresh()` clears and nulls the handle if set, else does
nothing.  We track the set of intervals actually installed in the browser (`active`)
and the observable actions taken against the browser API. -/

inductive TAct where
  | cleared : Nat → TAct
  | installed : Nat → Nat → TAct
  | fetchNow : TAct
  deriving DecidableEq, Repr

structure TimerState where
  handle : Option Nat
  next : Nat
  active : List Nat
  deriving DecidableEq, Repr

def initTimer : TimerState := ⟨none, 0, []⟩

/-- `startAutoRefresh` (main.js lines 193-198). -/
def startAutoRefresh (intervalMs : Nat) (s : TimerState) : TimerState × List TAct :=
  match s.handle with
  | some h =>
      (⟨some s.next, s.next + 1, s.next :: s.active.erase h⟩,
       [.cleared h, .installed s.next intervalMs])
  | none =>
      (⟨some s.next, s.next + 1, s.next :: s.active⟩, [.installed s.next intervalMs])

/-- `stopAutoRefresh` (main.js lines 200-205). -/
def stopAutoRefresh (s : TimerState) : TimerState × List TAct :=
  match s.handle with
  | some h => (⟨none, s.next, s.active.erase h⟩, [.cleared h])
  | none => (s, [])

/-- C8: both disposers are idempotent.  A second `stopAutoRefresh` finds the nulled
handle, changes no state, clears nothing further, and raises no error (it is the
`if (autoRefreshInterval)` no-op branch, a total function); a second run of the useApi
effect cleanup (`cancelled = true` again) changes nothing either. -/
theorem disposer_idempotent :
    (∀ s : TimerState, stopAutoRefresh (stopAutoRefresh s).1 = ((stopAutoRefresh s).1, [])) ∧
    (∀ sub : Sub, step (step sub .cleanup) .cleanup = step sub .cleanup) := by
  constructor
  · intro s
    obtain ⟨hd, nx, ac⟩ := s
    cases hd <;> simp [stopAutoRefresh]
  · intro sub
    simp [step]

/-- Page-level timer events: the calls the page scripts make. -/
inductive TEv where
  | startAR : Nat → TEv
  | stopAR : TEv
  deriving DecidableEq, Repr

def tstep (s : TimerState) : TEv → TimerState
  | .startAR i => (startAutoRefresh i s).1
  | .stopAR => (stopAutoRefresh s).1

def trun (s : TimerState) : List TEv → TimerState
  | [] => s
  | e :: es => trun (tstep s e) es

/-- The intervals installed in the browser are exactly the one held in
`autoRefreshInterval`. -/
def TInv (s : TimerState) : Prop := s.active = s.handle.toList

theorem tinv_init : TInv initTimer := rfl

theorem tinv_tstep (s : TimerState) (e : TEv) (h : TInv s) : TInv (tstep s e) := by
  obtain ⟨hd, nx, ac⟩ := s
  cases e with
  | startAR i =>
      cases hd with
      | none => simpa [tstep, startAutoRefresh, TInv] using h
      | some k =>
          simp only [TInv, Option.toList] at h
          simp [tstep, startAutoRefresh, TInv, h]
  | stopAR =>
      cases hd with
      | none => simpa [tstep, stopAutoRefresh, TInv] using h
      | some k =>
          simp only [TInv, Option.toList] at h
          simp [tstep, stopAutoRefresh, TInv, h]

theorem tinv_trun (s : TimerState) (es : List TEv) (h : TInv s) : TInv (trun s es) := by
  induction es generalizing s with
  | nil => exact h
  | cons e es ih => exact ih (tstep s e) (tinv_tstep s e h)

/-- C10: at most one refresh timer is ever active.  `startAutoRefresh` first clears the
previously installed interval (when one exists) before installing the new one;
`stopAutoRefresh` clears the active interval and nulls the handle, and is a no-op when
no timer is active; consequently every state reachable from page load has at most one
installed interval. -/
theorem autoRefresh_single_timer :
    (∀ (s : TimerState) (h i : Nat), s.handle = some h →
        (startAutoRefresh i s).2 = [.cleared h, .installed s.next i]) ∧
    (∀ (s : TimerState) (h : Nat), s.handle = some h →
        (stopAutoRefresh s).1.handle = none ∧ (stopAutoRefresh s).2 = [.cleared h]) ∧
    (∀ s : TimerState, s.handle = none → stopAutoRefresh s = (s, [])) ∧
    (∀ es : List TEv, (trun initTimer es).active.length ≤ 1) := by
  refine ⟨?_, ?_, ?_, ?_⟩
  · intro s h i hs
    obtain ⟨hd, nx, ac⟩ := s
    cases hd with
    | none => simp at hs
    | some k =>
        simp only [Option.some.injEq] at hs
        subst hs
        rfl
  · intro s h hs
    obtain ⟨hd, nx, ac⟩ := s
    cases hd with
    | none => simp at hs
    | some k =>
        simp only [Option.some.injEq] at hs
        subst hs
        exact ⟨rfl, rfl⟩
  · intro s hs
    obtain ⟨hd, nx, ac⟩ := s
    cases hd with
    | none => rfl
    | some k => simp at hs
  · intro es
    have h := tinv_trun initTimer es tinv_init
    rw [TInv] at h
    rw [h]
    cases (trun initTimer es).handle <;> simp [Option.toList]

/-- C10 witness: two installs in a row clear the first interval; a stop on a fresh page
is a no-op; after any concrete event list a single interval remains at most. -/
theorem autoRefresh_single_timer_witness :
    (startAutoRefresh 30000 ⟨some 0, 1, [0]⟩).2 = [.cleared 0, .installed 1 30000] ∧
    ((stopAutoRefresh ⟨some 0, 1, [0]⟩).1.handle = none ∧
      (stopAutoRefresh ⟨some 0, 1, [0]⟩).2 = [.cleared 0]) ∧
    stopAutoRefresh initTimer = (initTimer, []) ∧
    (trun initTimer [.startAR 30000, .startAR 30000, .stopAR]).active.length ≤ 1 :=
  ⟨autoRefresh_single_timer.1 ⟨some 0, 1, [0]⟩ 0 30000 rfl,
   autoRefresh_single_timer.2.1 ⟨some 0, 1, [0]⟩ 0 rfl,
   autoRefresh_single_timer.2.2.1 initTimer rfl,
   autoRefresh_single_timer.2.2.2 [.startAR 30000, .startAR 30000, .stopAR]⟩

/-! ## Visibility pause/resume (C4)

The `visibilitychange` handler installed by `setupAutoRefresh` (jobs.js lines 326-335,
dashboard.js lines 308-314, config.js lines 152-160): when the document becomes hidden
it calls `stopAutoRefresh()`; when it becomes visible it calls
`startAutoRefresh(callback, 30000)`.  The refresh callback is only handed to
`setInterval` — the handler never invokes it directly, so no immediate fetch (`fetchNow`
action) is ever emitted, and the freshly installed interval first fires only one full
interval after installation. -/

def onVisibilityChange (hidden : Bool) (s : TimerState) : TimerState × List TAct :=
  if hidden then stopAutoRefresh s else startAutoRefresh 30000 s

/-- `setInterval(callback, intervalMs)` runs the callback for the first time one full
interval after installation. -/
def setIntervalFirstFireDelay (intervalMs : Nat) : Nat := intervalMs

/-- C4 counterexample: start on the jobs page (timer installed), hide (timer cleared),
then become visible again: the handler emits only the installation of a fresh 30000 ms
interval — no immediate fetch is performed, and the first attempt after the transition
comes 30000 ms later, not immediately. -/
theorem visibility_no_immediate_fetch :
    (onVisibilityChange false
        ((onVisibilityChange true (trun initTimer [.startAR 30000])).1)).2 =
      [.installed 1 30000] ∧
    TAct.fetchNow ∉ (onVisibilityChange false
        ((onVisibilityChange true (trun initTimer [.startAR 30000])).1)).2 ∧
    setIntervalFirstFireDelay 30000 = 30000 ∧ 30000 ≠ 0 := by
  decide

/-- C4 amended: with the page's visibility handler, no fetch attempt is scheduled while
hidden (hiding clears the interval, leaving no installed timer), and on every
hidden-to-visible transition polling resumes — but without any immediate attempt: the
handler emits no direct callback invocation, only the installation of a fresh interval
whose first fire comes a full 30000 ms after the transition. -/
theorem visibility_pause_resume (s : TimerState) (hInv : TInv s) :
    (onVisibilityChange true s).1.active = [] ∧
    (onVisibilityChange true s).1.handle = none ∧
    TAct.fetchNow ∉ (onVisibilityChange false s).2 ∧
    (onVisibilityChange false s).2.getLast? = some (.installed s.next 30000) ∧
    setIntervalFirstFireDelay 30000 = 30000 := by
  obtain ⟨hd, nx, ac⟩ := s
  cases hd with
  | none =>
      rw [TInv] at hInv
      simp only [Option.toList] at hInv
      subst hInv
      refine ⟨rfl, rfl, ?_, rfl, rfl⟩
      simp [onVisibilityChange, startAutoRefresh]
  | some k =>
      rw [TInv] at hInv
      simp only [Option.toList] at hInv
      subst hInv
      refine ⟨?_, rfl, ?_, rfl, rfl⟩
      · simp [onVisibilityChange, stopAutoRefresh]
      · simp [onVisibilityChange, startAutoRefresh]

/-- C4 witness: from the hidden jobs page state. -/
theorem visibility_pause_resume_witness :
    (onVisibilityChange true ⟨some 0, 1, [0]⟩).1.active = [] ∧
    (onVisibilityChange true ⟨some 0, 1, [0]⟩).1.handle = none ∧
    TAct.fetchNow ∉ (onVisibilityChange false ⟨some 0, 1, [0]⟩).2 ∧
    (onVisibilityChange false ⟨some 0, 1, [0]⟩).2.getLast? = some (.installed 1 30000) ∧
    setIntervalFirstFireDelay 30000 = 30000 :=
  visibility_pause_resume ⟨some 0, 1, [0]⟩ rfl

/-! ## Polling cadence (C3)

`startAutoRefresh` schedules with `setInterval(callback, interval)` (main.js line 197):
the browser fires the callback at fixed times `interval * (k+1)` after installation,
independent of how long each attempt's network call takes.  With a response duration
`d`, attempt `k` occupies the window `[interval*(k+1), interval*(k+1) + d)`. -/

/-- Start time of attempt `k` (k = 0, 1, ...) of an interval installed at time 0. -/
def attemptStart (intervalMs k : Nat) : Nat := intervalMs * (k + 1)

/-- Completion time of attempt `k` when each response takes `d` ms. -/
def attemptEnd (intervalMs d k : Nat) : Nat := attemptStart intervalMs k + d

/-- Number of attempts whose network call is in flight at time `t`. -/
def inFlightCount (intervalMs d t : Nat) : Nat :=
  ((Finset.range (t + 2)).filter
    (fun k => attemptStart intervalMs k ≤ t ∧ t < attemptEnd intervalMs d k)).card

/-- C3 counterexample: with `intervalMs = 1000` and a 1500 ms response, the second
attempt starts at 2000 ms — before the first completes at 2500 ms, and earlier than
1500 ms after the first attempt began — and at time 2000 two network calls are in
flight, refuting completion-relative scheduling and the at-most-one-in-flight claim. -/
theorem polling_overlap_cex :
    attemptStart 1000 1 = 2000 ∧ attemptEnd 1000 1500 0 = 2500 ∧
    attemptStart 1000 1 < attemptEnd 1000 1500 0 ∧
    attemptStart 1000 1 < attemptStart 1000 0 + 1500 ∧
    inFlightCount 1000 1500 2000 = 2 := by
  refine ⟨rfl, rfl, by decide, by decide, ?_⟩
  have h : (Finset.range 2002).filter
      (fun k => attemptStart 1000 k ≤ 2000 ∧ 2000 < attemptEnd 1000 1500 k) = {0, 1} := by
    ext k
    simp only [Finset.mem_filter, Finset.mem_range, Finset.mem_insert,
      Finset.mem_singleton, attemptStart, attemptEnd]
    omega
  rw [inFlightCount, h]
  rfl

/-- C3 amended: `setInterval` schedules each attempt exactly `intervalMs` after the
*start* of the previous one, not after its completion; consequently, whenever a
response takes longer than the interval, at least two network calls are in flight at
the moment the next attempt starts. -/
theorem polling_fixed_rate (intervalMs d k : Nat)
    (hpos : 0 < intervalMs) (hslow : intervalMs < d) :
    attemptStart intervalMs (k + 1) = attemptStart intervalMs k + intervalMs ∧
    2 ≤ inFlightCount intervalMs d (attemptStart intervalMs (k + 1)) := by
  constructor
  · rw [attemptStart, attemptStart]; ring
  · have hstep : attemptStart intervalMs (k + 1) =
        attemptStart intervalMs k + intervalMs := by
      rw [attemptStart, attemptStart]; ring
    have hk1 : k + 1 ≤ attemptStart intervalMs k := by
      rw [attemptStart]
      calc k + 1 = 1 * (k + 1) := by ring
        _ ≤ intervalMs * (k + 1) := Nat.mul_le_mul_right _ hpos
    have hsub : ({k, k + 1} : Finset ℕ) ⊆
        (Finset.range (attemptStart intervalMs (k + 1) + 2)).filter
          (fun m => attemptStart intervalMs m ≤ attemptStart intervalMs (k + 1) ∧
            attemptStart intervalMs (k + 1) < attemptEnd intervalMs d m) := by
      intro m hm
      simp only [Finset.mem_insert, Finset.mem_singleton] at hm
      rcases hm with rfl | rfl <;>
        · simp only [Finset.mem_filter, Finset.mem_range, attemptEnd]
          omega
    have hcard : ({k, k + 1} : Finset ℕ).card = 2 := Finset.card_pair (by omega)
    calc 2 = ({k, k + 1} : Finset ℕ).card := hcard.symm
      _ ≤ _ := Finset.card_le_card hsub

/-- C3 witness: interval 10 ms, response 15 ms — when the second attempt fires, two
calls are in flight. -/
theorem polling_fixed_rate_witness :
    attemptStart 10 1 = attemptStart 10 0 + 10 ∧
    2 ≤ inFlightCount 10 15 (attemptStart 10 1) :=
  polling_fixed_rate 10 15 0 (by decide) (by decide)

/-! ## formatFileSize (C9)

main.js lines 30-36:

* `bytes === 0` returns `'0 Bytes'`;
* `i = Math.floor(Math.log(bytes) / Math.log(1024))` — for an integer `bytes ≥ 1` the
  real-logarithm floor is `Nat.log 1024 bytes` (the bridge is part of the C9 theorem);
* `(bytes / Math.pow(k, i)).toFixed(2)` — `bytes / 1024^i` is an exact binary double
  for `bytes < 2^53`, and ECMA `toFixed` picks the numerator closest to the value with
  ties to the larger, i.e. it rounds half-up: numerator
  `(200*bytes + 1024^i) / (2*1024^i)`;
* `parseFloat(...)` concatenated into a string drops the trailing fraction zeros (and a
  bare point);
* `sizes[i]` past the end is `undefined`, which JS string concatenation renders as the
  text "undefined". -/

def sizes : List String := ["Bytes", "KB", "MB", "GB"]

/-- Two-digit rendering of the fraction part (0-99). -/
def pad2 (m : Nat) : String := if m < 10 then "0" ++ toString m else toString m

/-- The `toFixed(2)` numeral of the value `n / 100`. -/
def toFixedTwo (n : Nat) : String := toString (n / 100) ++ "." ++ pad2 (n % 100)

/-- `parseFloat` of a two-decimal numeral rendered back to a string: trailing zeros of
the fraction go, and a bare trailing point goes with them. -/
def dropTrailingZeroes (s : String) : String :=
  let l := s.data.reverse.dropWhile (fun c => c == '0')
  let l' := if l.head? = some '.' then l.tail else l
  ⟨l'.reverse⟩

/-- `formatFileSize` (main.js lines 30-36). -/
def formatFileSize (bytes : Nat) : String :=
  if bytes = 0 then "0 Bytes"
  else
    dropTrailingZeroes (toFixedTwo
        ((200 * bytes + 1024 ^ Nat.log 1024 bytes) / (2 * 1024 ^ Nat.log 1024 bytes)))
      ++ " " ++ sizes.getD (Nat.log 1024 bytes) "undefined"

/-- The claim's description of the output for `1 ≤ bytes`: `bytes / 1024^i` rounded
(half-up, the `toFixed` tie rule) to two decimal places with trailing zeros dropped,
then a space and the unit of index `i`. -/
def formatFileSizeClaim (bytes : Nat) : String :=
  dropTrailingZeroes (toFixedTwo
      (round ((bytes : ℚ) * 100 / 1024 ^ Nat.log 1024 bytes)).toNat)
    ++ " " ++ ["Bytes", "KB", "MB", "GB"].getD (Nat.log 1024 bytes) "?"

/-- Rounding `b*100 / 1024^i` half-up over ℚ is the natural-division formula used in
the embedding of `toFixed(2)`. -/
theorem round_cast_div (b i : Nat) :
    (round ((b : ℚ) * 100 / 1024 ^ i)).toNat = (200 * b + 1024 ^ i) / (2 * 1024 ^ i) := by
  have hpow : (0 : ℚ) < 1024 ^ i := by positivity
  have hq : (b : ℚ) * 100 / 1024 ^ i + 1 / 2 =
      ((200 * b + 1024 ^ i : ℕ) : ℚ) / ((2 * 1024 ^ i : ℕ) : ℚ) := by
    push_cast
    field_simp
    ring
  rw [round_eq, hq, Int.floor_toNat, Nat.floor_div_eq_div]

theorem units_getD (i : Nat) (h : i < 4) :
    sizes.getD i "undefined" = ["Bytes", "KB", "MB", "GB"].getD i "?" := by
  interval_cases i <;> rfl

/-- C9: `formatFileSize 0 = "0 Bytes"`, and for `1 ≤ bytes < 1024^4` the output is the
claim's description — the rounded two-decimal value of `bytes / 1024^i` with trailing
zeros dropped, a space and the unit of index `i` among Bytes/KB/MB/GB — where the
code's `Math.floor(Math.log(bytes)/Math.log(1024))` agrees with the real-logarithm
floor `⌊logb 1024 bytes⌋ = Nat.log 1024 bytes`, which stays below 4 on the range. -/
theorem formatFileSize_correct (b : Nat) (h1 : 1 ≤ b) (h2 : b < 1024 ^ 4) :
    formatFileSize b = formatFileSizeClaim b ∧
    Nat.log 1024 b < 4 ∧
    ⌊Real.logb ((1024 : ℕ) : ℝ) (b : ℝ)⌋ = (Nat.log 1024 b : ℤ) ∧
    formatFileSize 0 = "0 Bytes" := by
  have hlt : Nat.log 1024 b < 4 := Nat.log_lt_of_lt_pow (by omega) h2
  refine ⟨?_, hlt, ?_, rfl⟩
  · rw [formatFileSize, if_neg (by omega), formatFileSizeClaim, round_cast_div,
      units_getD _ hlt]
  · rw [Real.floor_logb_natCast (by positivity), Int.log_natCast]

/-- C9 witness: 1536 bytes is reported as "1.5 KB" (1536/1024 = 1.50, trailing zero
dropped), matching the claim's description. -/
theorem formatFileSize_correct_witness :
    formatFileSize 1536 = formatFileSizeClaim 1536 ∧ formatFileSize 1536 = "1.5 KB" := by
  refine ⟨(formatFileSize_correct 1536 (by omega) (by norm_num)).1, ?_⟩
  have hlog : Nat.log 1024 1536 = 1 :=
    Nat.log_eq_of_pow_le_of_lt_pow (by norm_num) (by norm_num)
  rw [formatFileSize, if_neg (by omega), hlog]
  rfl

end DataAutomationBot
